import Mathlib

/-!
Shallow embedding of the ClimateOps imagery-to-polygon pipeline.

Sources embedded here:
- `src/server/index.js` : TTL cache (`getCached`/`setCached`), the `/api/ingest`
  JSON route with its temporal fallback sweep, and the placeholder branch.
- `src/unnamed/part_000` (ingestor module) : `axiosPostWithRetry`,
  payload validation (`isValidPNG`/`isValidTIFF`) inside `tryFetchImagery`.
- `src/unnamed/part_001` (polygons module) : `SENSOR_PRESETS`,
  `mergeOverlappingPolygons`, `contoursToPolygons`, `generatePolygons`.
- `src/hooks/useClimateOps.ts` : the confidence calculations in `startAnalysis`.

External libraries (turf geometry, marching-squares contour tracing, the HTTP
transport) are modelled as oracles: function-valued parameters of the embedded
definitions.  Machine floats are modelled as `ℚ`, JS byte buffers as `List ℕ`,
JS strings as `List Char`, timestamps and day-indexed dates as `ℤ`.
-/

namespace ClimateOps

/-! ## JS string helpers: `String.prototype.includes` / `toLowerCase` -/

/-- `startsWith pat l` : `pat` is an initial segment of `l`
(character-by-character comparison, as JS string comparison). -/
def startsWith : List Char → List Char → Bool
  | [], _ => true
  | _ :: _, [] => false
  | p :: ps, c :: cs => p == c && startsWith ps cs

/-- `includesSub l pat` : JS `l.includes(pat)` — `pat` occurs contiguously in `l`. -/
def includesSub (l pat : List Char) : Bool :=
  startsWith pat l ||
    match l with
    | [] => false
    | _ :: tl => includesSub tl pat

/-- JS `String.prototype.toLowerCase` on ASCII data. -/
def toLowerList (s : List Char) : List Char := s.map Char.toLower

/-! ## Artifact cache (src/server/index.js lines 62-80) -/

/-- One cache slot: `{ value, expires }` as stored by `setCached`. -/
structure CacheEntry (V : Type) where
  value : V
  expires : ℤ
deriving Repr, DecidableEq

/-- The in-memory `Map` backing each cache, modelled as a partial function. -/
def Cache (K V : Type) := K → Option (CacheEntry V)

/-- `getCached(map, key)` at wall-clock time `now`.  Returns the looked-up value
and the map after the call (lazy eviction deletes an expired entry).
The JS guard is `entry.expires && Date.now() > entry.expires`; the truthiness
test on the number `entry.expires` is modelled as `≠ 0`. -/
def getCached {K V : Type} [DecidableEq K] (now : ℤ) (m : Cache K V) (k : K) :
    Option V × Cache K V :=
  match m k with
  | none => (none, m)
  | some e =>
    if e.expires ≠ 0 ∧ e.expires < now then
      (none, fun j => if j = k then none else m j)
    else
      (some e.value, m)

/-- `setCached(map, key, value, ttlMs)` at wall-clock time `now`:
stores `{ value, expires: now + ttlMs }`, overwriting any previous entry. -/
def setCached {K V : Type} [DecidableEq K] (now : ℤ) (m : Cache K V) (k : K)
    (v : V) (ttlMs : ℤ) : Cache K V :=
  fun j => if j = k then some ⟨v, now + ttlMs⟩ else m j

/-- `CACHE_TTL_MS = 1000 * 60 * 60`, the ttl every `setCached` call site uses. -/
def CACHE_TTL_MS : ℤ := 1000 * 60 * 60

/-! ## Confidence aggregation (src/hooks/useClimateOps.ts lines 124-146)

`size` is `ingestData.size` with `0` playing the role of the falsy values
(`0`/`undefined`); `count` is `floodPolygons.length`; `hasSource` is the
truthiness of `ingestData.source`; `goodWeather` is the truthiness of
`weather && (weather.temperature !== 0 || weather.rainfall !== '0mm')`. -/

/-- `ingestData.size ? Math.min(100, 30 + (ingestData.size / 5000)) : 65` -/
def imageryQuality (size : ℕ) : ℚ :=
  if size = 0 then 65 else min 100 (30 + (size : ℚ) / 5000)

/-- `Math.min(90, 40 + (floodPolygons.length * 8))` -/
def polygonConfidence (count : ℕ) : ℚ :=
  min 90 (40 + (count : ℚ) * 8)

/-- `Math.round((imageryQuality + polygonConfidence) / 2)` -/
def satelliteConfidence (size count : ℕ) : ℤ :=
  round ((imageryQuality size + polygonConfidence count) / 2)

/-- `(ingestData.source ? 40 : 20) + (floodPolygons.length > 0 ? 20 : 0)` -/
def documentConfidence (hasSource : Bool) (count : ℕ) : ℚ :=
  (if hasSource then 40 else 20) + (if 0 < count then 20 else 0)

/-- `weather && (temperature !== 0 || rainfall !== '0mm') ? 70 : 45` -/
def weatherConfidenceVal (goodWeather : Bool) : ℚ :=
  if goodWeather then 70 else 45

/-- `Math.round(satellite*0.4 + weather*0.35 + documents*0.25)` -/
def overallConfidence (size count : ℕ) (hasSource goodWeather : Bool) : ℤ :=
  round ((satelliteConfidence size count : ℚ) * (4 / 10)
    + weatherConfidenceVal goodWeather * (35 / 100)
    + documentConfidence hasSource count * (25 / 100))

/-! ## Payload validation (src/unnamed/part_000, ingestor `tryFetchImagery`) -/

/-- `b.length > 8 && b[0]===0x89 && b[1]===0x50 && b[2]===0x4E && b[3]===0x47` -/
def isValidPNG (b : List ℕ) : Bool :=
  decide (8 < b.length) && (b.getD 0 0 == 0x89) && (b.getD 1 0 == 0x50)
    && (b.getD 2 0 == 0x4E) && (b.getD 3 0 == 0x47)

/-- `b.length > 4 && ((b[0]===0x49 && b[1]===0x49) || (b[0]===0x4D && b[1]===0x4D))` -/
def isValidTIFF (b : List ℕ) : Bool :=
  decide (4 < b.length)
    && ((b.getD 0 0 == 0x49 && b.getD 1 0 == 0x49)
      || (b.getD 0 0 == 0x4D && b.getD 1 0 == 0x4D))

def fmtPng : List Char := "png".toList
def fmtTiff : List Char := "tiff".toList
def fmtGeotiff : List Char := "geotiff".toList
def fmtTif : List Char := "tif".toList

/-- The validation block of the ingestor `tryFetchImagery`
(`const fmt = (outputFormat || '').toLowerCase(); if (fmt.includes('png')) ...`):
`some buf` when the payload is accepted, `none` when the attempt is treated as
"no data". -/
def validatePayload (outputFormat : List Char) (buf : List ℕ) : Option (List ℕ) :=
  let fmt := toLowerList outputFormat
  if includesSub fmt fmtPng then
    if isValidPNG buf then some buf else none
  else if includesSub fmt fmtTiff || includesSub fmt fmtGeotiff
      || includesSub fmt fmtTif then
    if isValidTIFF buf then some buf else none
  else if buf.length = 0 then none
  else some buf

/-- `axiosPostWithRetry(url, body, opts, retries, delay)`: the HTTP transport is
the oracle `f`, indexed by attempt number; a thrown transport error is
`Except.error`.  On error with a remaining budget the call recurses with
`retries - 1` (the doubled delay does not affect the value). -/
def axiosPostWithRetry {E B : Type} (f : ℕ → Except E B) (attempt retries : ℕ) :
    Except E B :=
  match f attempt with
  | .ok r => .ok r
  | .error e =>
    match retries with
    | 0 => .error e
    | r + 1 => axiosPostWithRetry f (attempt + 1) r

/-- The ingestor `tryFetchImagery`: one transport exchange with retry budget 3,
`resp.data` modelled as `Option (List ℕ)` (`none` = missing body), then the
validation block; any caught error yields `null` (`none`). -/
def tryFetchImagery {E : Type} (f : ℕ → Except E (Option (List ℕ)))
    (outputFormat : List Char) : Option (List ℕ) :=
  match axiosPostWithRetry f 0 3 with
  | .error _ => none
  | .ok none => none
  | .ok (some buf) => validatePayload outputFormat buf

/-! ## Temporal fallback sweep (src/server/index.js lines 315-331)

Dates are modelled as integer day numbers: `new Date(date);
d.setDate(d.getDate() - offset)` subtracts exactly `offset` days.
The per-date acquisition (`tryFetchImagery(queryDate)`) is the oracle
`f : ℤ → Option α` (`none` = that date yielded no validated imagery). -/

/-- `const fallbackOffsets = [7, 14, 21, 30, 45, 60];` -/
def fallbackOffsets : List ℤ := [7, 14, 21, 30, 45, 60]

/-- The dates the loop may query, in order: the requested date, then the
fallback dates. -/
def candidateDates (date : ℤ) : List ℤ :=
  date :: fallbackOffsets.map (fun o => date - o)

/-- The `let resp = ...; for (const offset of fallbackOffsets) { if (resp)
break; resp = ... }` loop over a date list: returns the dates actually
attempted (in order) and the first successful response, if any. -/
def sweep {α : Type} (f : ℤ → Option α) : List ℤ → List ℤ × Option α
  | [] => ([], none)
  | d :: ds =>
    match f d with
    | some r => ([d], some r)
    | none =>
      let rest := sweep f ds
      (d :: rest.1, rest.2)

/-- The dates `/api/ingest` actually queries for a request date. -/
def attemptedDates {α : Type} (f : ℤ → Option α) (date : ℤ) : List ℤ :=
  (sweep f (candidateDates date)).1

def noImageryPre : List Char :=
  "No Sentinel-2 imagery available for the requested location. Tried dates from ".toList

def noImagerySuf : List Char :=
  " back to 60 days prior. The location may have cloud cover or insufficient satellite passes.".toList

/-- Rendering of the (day-numbered) request date inside the error message. -/
def dateRender (date : ℤ) : List Char := (toString date).toList

/-- `'No Sentinel-2 imagery available ... Tried dates from ' + date + ' back to
60 days prior. ...'` -/
def noImageryMsg (date : ℤ) : List Char :=
  noImageryPre ++ dateRender date ++ noImagerySuf

/-- The acquisition part of the JSON `/api/ingest` route: requested date first,
then the fallback schedule, else the HTTP 500 exhaustion error. -/
def ingestFetch {α : Type} (f : ℤ → Option α) (date : ℤ) : Except (List Char) α :=
  match (sweep f (candidateDates date)).2 with
  | some r => .ok r
  | none => .error (noImageryMsg date)

/-! ## The JSON `/api/ingest` route (src/server/index.js lines 229-366) -/

/-- The route's three response shapes: `res.json({ok:true, source, ...})`,
`res.status(400).json(...)`, `res.status(500).json(...)`. -/
inductive ApiResult (β : Type) where
  | ok (source : List Char) (artifact : β)
  | badRequest (msg : List Char)
  | serverError (msg : List Char)
deriving Repr, DecidableEq

/-- A saved artifact: either fetched/cached imagery bytes, or the generated
placeholder PNG, whose SVG is annotated with the requested bbox and date. -/
inductive IngestArtifact (β : Type) where
  | fetched (data : β)
  | placeholderArt (bbox : List ℚ) (date : ℤ)
deriving Repr, DecidableEq

def placeholderSource : List Char := "placeholder".toList
def cacheSource : List Char := "cache".toList
def sentinelSource : List Char := "sentinel-hub".toList

def invalidBboxMsg : List Char :=
  "Missing or invalid bbox. Provide [minLon, minLat, maxLon, maxLat].".toList

/-- `alert(...)` at src/server/index.js line 265 is a browser API that does not
exist in Node: evaluating it throws `ReferenceError: alert is not defined`,
which the route's `catch` turns into a 500 response. -/
def alertRefErrorMsg : List Char :=
  "ReferenceError: alert is not defined".toList

/-- The JSON branch of `/api/ingest`.  Booleans are the truthiness of the
configuration values: `urlConfigured` = `SENTINELHUB_PROCESSING_URL`,
`requestToken`/`accessToken`/`clientCreds` = the three credential sources,
`exchangeOk` = whether the client-credentials token exchange succeeds.
`cached` is the valid ingest-cache hit (entry present and its file on disk),
`fetch` the per-date acquisition oracle.  Saving the fetched buffer to disk is
modelled as always succeeding. -/
def apiIngestJson {β : Type} (urlConfigured requestToken accessToken clientCreds
    exchangeOk : Bool) (bbox : Option (List ℚ)) (date : ℤ) (cached : Option β)
    (fetch : ℤ → Option β) : ApiResult (IngestArtifact β) :=
  match bbox with
  | none => .badRequest invalidBboxMsg
  | some b =>
    if b.length ≠ 4 then .badRequest invalidBboxMsg
    else
      -- let tokenToUse = requestToken || accessToken; if (!tokenToUse && clientId
      -- && clientSecret) tokenToUse = await requestClientToken() (failure caught)
      let tokenToUse := requestToken || accessToken || (clientCreds && exchangeOk)
      if urlConfigured && !tokenToUse then
        .serverError alertRefErrorMsg
      else if urlConfigured && tokenToUse then
        match cached with
        | some art => .ok cacheSource (.fetched art)
        | none =>
          match ingestFetch fetch date with
          | .ok art => .ok sentinelSource (.fetched art)
          | .error msg => .serverError msg
      else
        .ok placeholderSource (.placeholderArt b date)

/-! ## Polygon extraction (src/unnamed/part_001)

Coordinates are `ℚ × ℚ`; a polygon is its outer ring, a coordinate list.
The turf geometry library is the oracle `GeoLib` (`turf.area`,
`turf.intersect` — `none` models both a null result and a caught exception —
and `turf.union`); marching-squares `isoContours` is the oracle `iso`,
indexed by the threshold it is run at. -/

abbrev Coord : Type := ℚ × ℚ

abbrev GeoRing : Type := List Coord

/-- The turf operations `generatePolygons` and `mergeOverlappingPolygons` use. -/
structure GeoLib where
  area : GeoRing → ℚ
  intersect : GeoRing → GeoRing → Option GeoRing
  union : GeoRing → GeoRing → GeoRing

/-- Extraction preset `{ threshold, minArea }`. -/
structure SensorPreset where
  threshold : ℚ
  minArea : ℚ
deriving Repr, DecidableEq

def s2Id : List Char := "sentinel-2".toList
def s1Id : List Char := "sentinel-1".toList
def l8Id : List Char := "landsat-8".toList

/-- `SENSOR_PRESETS`, in `Object.entries` (insertion) order. -/
def SENSOR_PRESETS : List (List Char × SensorPreset) :=
  [(s2Id, ⟨180, 100000⟩), (s1Id, ⟨100, 10000⟩), (l8Id, ⟨160, 50000⟩)]

/-- The preset-selection loop at the top of `generatePolygons`: the first
preset whose sensor id occurs in the filename overrides the caller's
`threshold`/`minArea` (the loop `break`s at the first match). -/
def selectParams (filename : List Char) (threshold minArea : ℚ) : ℚ × ℚ :=
  match SENSOR_PRESETS.find? (fun e => includesSub filename e.1) with
  | some e => (e.2.threshold, e.2.minArea)
  | none => (threshold, minArea)

/-- `overlapRatio = areaInt / Math.min(areaI, areaJ); overlapRatio >
overlapThreshold` for one candidate pair, `false` when `turf.intersect`
returns no geometry (or throws, which the JS `catch` ignores).
`ℚ` division by zero yields `0`, so a zero-area smaller polygon never
qualifies; turf areas are nonnegative and an intersection's area never
exceeds the smaller polygon's, so this matches the JS arithmetic. -/
def qualifies (G : GeoLib) (thr : ℚ) (p q : GeoRing) : Bool :=
  match G.intersect p q with
  | none => false
  | some inter => decide (thr < G.area inter / min (G.area p) (G.area q))

/-- The inner `for (j = i + 1; ...)` scan: try to merge `p` (slot `i`) with the
first qualifying later polygon.  On a merge, slot `i` receives the union and
the partner is spliced out; everything else keeps its position. -/
def mergeWith (G : GeoLib) (thr : ℚ) (p : GeoRing) :
    List GeoRing → Option (GeoRing × List GeoRing)
  | [] => none
  | q :: qs =>
    if qualifies G thr p q then some (G.union p q, qs)
    else
      match mergeWith G thr p qs with
      | some (u, qs') => some (u, q :: qs')
      | none => none

/-- One pass of the `for (i...) for (j...)` scan, stopping at the first merge
(the JS loop sets `changed` and breaks out of both loops): `none` when no pair
qualifies. -/
def mergeOnce (G : GeoLib) (thr : ℚ) : List GeoRing → Option (List GeoRing)
  | [] => none
  | p :: rest =>
    match mergeWith G thr p rest with
    | some (u, rest') => some (u :: rest')
    | none =>
      match mergeOnce G thr rest with
      | some rest' => some (p :: rest')
      | none => none

/-- The `while (changed)` restart loop.  Every merge removes exactly one list
element, so starting the loop with fuel = list length is enough to reach the
fixed point: when the fuel runs out the list is empty and no pair can qualify
anyway.  This makes the (always terminating) JS loop a total function. -/
def mergeLoopFuel (G : GeoLib) (thr : ℚ) : ℕ → List GeoRing → List GeoRing
  | 0, l => l
  | n + 1, l =>
    match mergeOnce G thr l with
    | none => l
    | some l' => mergeLoopFuel G thr n l'

/-- `mergeOverlappingPolygons(features, overlapThreshold)` (src/unnamed/part_001
lines 16-48): the empty list is returned unchanged, otherwise pairs are merged
until no pair's intersection exceeds `thr` of the smaller area. -/
def mergeOverlappingPolygons (G : GeoLib) (thr : ℚ) (features : List GeoRing) :
    List GeoRing :=
  if features.length = 0 then features
  else mergeLoopFuel G thr features.length features

/-- A caller-supplied bounding box `[minX, minY, maxX, maxY]`. -/
structure BBox where
  minX : ℚ
  minY : ℚ
  maxX : ℚ
  maxY : ℚ
deriving Repr, DecidableEq

/-- Pixel-to-geographic mapping of `contoursToPolygons`:
`lon = minX + (x / width) * (maxX - minX);
lat = maxY - (y / height) * (maxY - minY)`; without a bbox the pixel
coordinates are kept. -/
def mapCoord (bbox : Option BBox) (width height : ℕ) (pt : Coord) : Coord :=
  match bbox with
  | some b =>
    (b.minX + pt.1 / (width : ℚ) * (b.maxX - b.minX),
     b.maxY - pt.2 / (height : ℚ) * (b.maxY - b.minY))
  | none => pt

/-- `if (coords.length > 0 && (coords[0] differs from coords[last])) coords.push(coords[0])` -/
def closeRing (coords : GeoRing) : GeoRing :=
  match coords.head? with
  | none => coords
  | some c => if coords.getLast? = some c then coords else coords ++ [c]

/-- `contoursToPolygons(contours, width, height, bbox)` (src/unnamed/part_001
lines 103-127): drop contours with fewer than 3 points, map to geographic
coordinates, close the ring, and keep only rings `turf.polygon` accepts — at
least 4 positions (first = last holds by construction after closing; a caught
`turf.polygon` exception skips the contour). -/
def contoursToPolygons (contours : List GeoRing) (width height : ℕ)
    (bbox : Option BBox) : List GeoRing :=
  contours.filterMap fun contour =>
    if contour.length < 3 then none
    else
      let closed := closeRing (contour.map (mapCoord bbox width height))
      if closed.length < 4 then none else some closed

/-- `turf.bboxPolygon(bbox)`: the rectangle's ring
`[[minX,minY],[maxX,minY],[maxX,maxY],[minX,maxY],[minX,minY]]`. -/
def bboxPolygon (b : BBox) : GeoRing :=
  [(b.minX, b.minY), (b.maxX, b.minY), (b.maxX, b.maxY), (b.minX, b.maxY),
   (b.minX, b.minY)]

/-- `.filter((x) => x.area >= effectiveMinArea)` -/
def filterByArea (G : GeoLib) (minArea : ℚ) (rings : List GeoRing) : List GeoRing :=
  rings.filter fun p => decide (minArea ≤ G.area p)

/-- `features.reduce((s, f) => s + turf.area(f), 0)` -/
def totalAreaOf (G : GeoLib) (rings : List GeoRing) : ℚ :=
  (rings.map G.area).sum

/-- The coverage guard condition (src/unnamed/part_001 lines 171-185): active
only when some features survived the area filter; `turf.area(bboxPoly) ||
0.000001` guards against a zero (falsy) bbox area; aborts when coverage
exceeds 30%. -/
def coverageExceeded (G : GeoLib) (b : BBox) (features : List GeoRing) : Bool :=
  if features.length = 0 then false
  else
    let rawBboxArea := G.area (bboxPolygon b)
    let bboxArea := if rawBboxArea = 0 then 1 / 1000000 else rawBboxArea
    decide (30 / 100 < totalAreaOf G features / bboxArea)

/-- The features surviving the area filter, with the sensor-effective
parameters: `contoursToPolygons` output filtered by `effectiveMinArea`. -/
def filteredFeatures (G : GeoLib) (iso : ℚ → List GeoRing) (width height : ℕ)
    (filename : List Char) (threshold minArea : ℚ) (suppliedBbox : Option BBox) :
    List GeoRing :=
  filterByArea G (selectParams filename threshold minArea).2
    (contoursToPolygons (iso (selectParams filename threshold minArea).1)
      width height suppliedBbox)

/-- `generatePolygons({filename, threshold, minArea, bbox})` (src/unnamed/
part_001 lines 129-197).  `readRasterGrid` always returns `bbox: null`, so the
effective bbox is the caller-supplied one.  The returned FeatureCollection is
its list of polygon rings. -/
def generatePolygons (G : GeoLib) (iso : ℚ → List GeoRing) (width height : ℕ)
    (filename : List Char) (threshold minArea : ℚ) (suppliedBbox : Option BBox) :
    List GeoRing :=
  let contours := iso (selectParams filename threshold minArea).1
  if 500 < contours.length then []
  else
    let features := filteredFeatures G iso width height filename threshold
      minArea suppliedBbox
    let aborted :=
      match suppliedBbox with
      | some b => coverageExceeded G b features
      | none => false
    if aborted then []
    else if 1 < features.length then
      mergeOverlappingPolygons G (1 / 10) features
    else features

/-- A polygon ring in the sense of the data model: nonempty, first point equal
to the last. -/
def isClosedRing (r : GeoRing) : Prop :=
  r ≠ [] ∧ r.head? = r.getLast?

instance (r : GeoRing) : Decidable (isClosedRing r) := by
  unfold isClosedRing; infer_instance

/-! ## Concrete fixtures used to instantiate the theorems below -/

/-- A small executable geometry oracle: area is the vertex count, the
intersection of two nonempty rings is the first vertex of the first,
union is concatenation. -/
def demoGeo : GeoLib where
  area := fun r => (r.length : ℚ)
  intersect := fun p q => if p.isEmpty || q.isEmpty then none else some (p.take 1)
  union := fun p q => p ++ q

/-- An acquisition oracle that succeeds only 21 days before day 0. -/
def demoFetch : ℤ → Option ℕ := fun d => if d = -21 then some 7 else none

def fnS2 : List Char := "sentinel-2_1700000000.tiff".toList
def fnS1 : List Char := "sentinel-1_1700000000.tiff".toList
def fnL8 : List Char := "landsat-8_1700000000.tiff".toList
def fnUpload : List Char := "upload_1700000000.tiff".toList

def demoBBox : BBox := ⟨0, 0, 1, 1⟩

def demoContour : GeoRing := [(0, 0), (4, 0), (4, 4)]

/-- `demoContour` mapped onto `demoBBox` over a 4×4 grid and closed. -/
def demoRing : GeoRing := [(0, 1), (1, 1), (1, 0), (0, 1)]

def ringA : GeoRing := [(0, 0), (1, 1)]
def ringB : GeoRing := [(0, 0), (1, 1), (2, 2)]
def ringC : GeoRing := List.replicate 20 (0, 0)
def ringD : GeoRing := List.replicate 40 (0, 0)

def demoCache : Cache ℕ ℕ := fun k => if k = 0 then some ⟨5, 100⟩ else none

def fmtImagePng : List Char := "image/png".toList
def fmtImageTiff : List Char := "image/tiff".toList
def fmtUnknown : List Char := "application/octet-stream".toList

def pngBuf : List ℕ := [0x89, 0x50, 0x4E, 0x47, 0, 0, 0, 0, 1]
def tiffBuf : List ℕ := [0x49, 0x49, 42, 0, 8]
def badBuf : List ℕ := [1, 2, 3]

def demoTransport : ℕ → Except Unit (Option (List ℕ)) :=
  fun _ => .ok (some badBuf)

def demoBbox4 : List ℚ := [0, 0, 1, 1]

end ClimateOps

namespace ClimateOps

/-! ## Lemmas about the temporal fallback sweep -/

theorem sweep_all_none {α : Type} (f : ℤ → Option α) :
    ∀ l : List ℤ, (∀ d ∈ l, f d = none) → sweep f l = (l, none) := by
  intro l
  induction l with
  | nil => intro _; rfl
  | cons d ds ih =>
    intro h
    have hd : f d = none := h d (List.mem_cons_self d ds)
    have hds := ih (fun e he => h e (List.mem_cons_of_mem d he))
    simp [sweep, hd, hds]

theorem sweep_first_success {α : Type} (f : ℤ → Option α) (r : α) :
    ∀ (l₁ : List ℤ) (d : ℤ) (l₂ : List ℤ), (∀ e ∈ l₁, f e = none) →
      f d = some r → sweep f (l₁ ++ d :: l₂) = (l₁ ++ [d], some r) := by
  intro l₁
  induction l₁ with
  | nil => intro d l₂ _ hd; simp [sweep, hd]
  | cons e es ih =>
    intro d l₂ h hd
    have he : f e = none := h e (List.mem_cons_self e es)
    have hrest := ih d l₂ (fun x hx => h x (List.mem_cons_of_mem e hx)) hd
    simp [sweep, he, hrest]

/-- Claim C2: on an empty result for the requested date, `/api/ingest` retries
the fallback dates `date - 7, -14, -21, -30, -45, -60` in exactly that order,
stops at the first success (later offsets are never attempted), and when every
date fails it returns the 500 error naming the searched date range
("Tried dates from <date> back to 60 days prior"). -/
theorem ingest_temporal_fallback {α : Type} :
    (∀ date : ℤ, candidateDates date =
      [date, date - 7, date - 14, date - 21, date - 30, date - 45, date - 60]) ∧
    (∀ (f : ℤ → Option α) (date : ℤ) (r : α) (l₁ l₂ : List ℤ) (d : ℤ),
      candidateDates date = l₁ ++ d :: l₂ → (∀ e ∈ l₁, f e = none) →
      f d = some r →
      ingestFetch f date = .ok r ∧ attemptedDates f date = l₁ ++ [d]) ∧
    (∀ (f : ℤ → Option α) (date : ℤ), (∀ d ∈ candidateDates date, f d = none) →
      ingestFetch f date = .error (noImageryPre ++ dateRender date ++ noImagerySuf)) := by
  refine ⟨?_, ?_, ?_⟩
  · intro date
    simp [candidateDates, fallbackOffsets]
  · intro f date r l₁ l₂ d hcand hnone hd
    have hs := sweep_first_success f r l₁ d l₂ hnone hd
    constructor
    · unfold ingestFetch
      rw [hcand, hs]
    · unfold attemptedDates
      rw [hcand, hs]
  · intro f date h
    have hs := sweep_all_none f (candidateDates date) h
    unfold ingestFetch
    rw [hs]
    rfl

/-- `ingest_temporal_fallback` instantiated: an oracle failing on the request
date and the first two fallback dates and succeeding on the third returns that
result, having attempted exactly the first four dates. -/
theorem ingest_temporal_fallback_instance :
    ingestFetch demoFetch 0 = .ok 7 ∧
      attemptedDates demoFetch 0 = [0, -7, -14, -21] := by
  have h := (@ingest_temporal_fallback ℕ).2.1 demoFetch 0 7 [0, -7, -14]
    [-30, -45, -60] (-21) (by decide) (by decide) (by decide)
  exact ⟨h.1, by simpa using h.2⟩

/-- Claim C10 (code-bug exhibit): with no processing URL configured, a JSON
ingest request with a valid 4-element bbox succeeds with the placeholder
artifact annotated with the requested bbox and date, and source
"placeholder" — but with a URL configured and no usable token, the route
evaluates the browser-only `alert(...)` (undefined in Node), so the thrown
`ReferenceError` is caught and the request fails with a 500 instead of
falling through to the placeholder, contradicting the claim and
src/server/README.md. -/
theorem ingest_placeholder_and_alert_crash {β : Type} :
    (∀ (requestToken accessToken clientCreds exchangeOk : Bool) (b : List ℚ)
      (date : ℤ) (cached : Option β) (fetch : ℤ → Option β), b.length = 4 →
      apiIngestJson false requestToken accessToken clientCreds exchangeOk
        (some b) date cached fetch
        = .ok placeholderSource (.placeholderArt b date)) ∧
    apiIngestJson true false false false false (some demoBbox4) 0
      (none : Option ℕ) (fun _ => none) = .serverError alertRefErrorMsg := by
  constructor
  · intro rt ac cc ex b date cached fetch hb
    simp [apiIngestJson, hb]
  · rfl

/-- `ingest_placeholder_and_alert_crash` instantiated at a concrete
no-URL-configured request. -/
theorem ingest_placeholder_and_alert_crash_instance :
    apiIngestJson false false false false false (some demoBbox4) 0
      (none : Option ℕ) (fun _ => none)
      = .ok placeholderSource (.placeholderArt demoBbox4 0) :=
  (@ingest_placeholder_and_alert_crash ℕ).1 false false false false demoBbox4 0
    none (fun _ => none) (by decide)

/-- Claim C6: a fetched payload is validated against its declared format — PNG
only with the PNG magic header, TIFF/GeoTIFF only with the TIFF magic bytes,
an unknown format iff non-empty — and an invalid or empty payload makes that
attempt return "no data" (`none`) computed from the single successful
transport exchange, with no further retry. -/
theorem payload_validation_by_format {E : Type} :
    (∀ (f : ℕ → Except E (Option (List ℕ))) (fmt : List Char) (buf : List ℕ),
      f 0 = .ok (some buf) → tryFetchImagery f fmt = validatePayload fmt buf) ∧
    (∀ (fmt : List Char) (buf : List ℕ),
      includesSub (toLowerList fmt) fmtPng = true →
      (validatePayload fmt buf = some buf ↔ isValidPNG buf = true)) ∧
    (∀ (fmt : List Char) (buf : List ℕ),
      includesSub (toLowerList fmt) fmtPng = false →
      (includesSub (toLowerList fmt) fmtTiff
        || includesSub (toLowerList fmt) fmtGeotiff
        || includesSub (toLowerList fmt) fmtTif) = true →
      (validatePayload fmt buf = some buf ↔ isValidTIFF buf = true)) ∧
    (∀ (fmt : List Char) (buf : List ℕ),
      includesSub (toLowerList fmt) fmtPng = false →
      (includesSub (toLowerList fmt) fmtTiff
        || includesSub (toLowerList fmt) fmtGeotiff
        || includesSub (toLowerList fmt) fmtTif) = false →
      (validatePayload fmt buf = some buf ↔ buf ≠ [])) ∧
    (∀ (fmt : List Char) (buf : List ℕ),
      validatePayload fmt buf = some buf ∨ validatePayload fmt buf = none) := by
  refine ⟨?_, ?_, ?_, ?_, ?_⟩
  · intro f fmt buf h
    have hr : axiosPostWithRetry f 0 3 = .ok (some buf) := by
      unfold axiosPostWithRetry
      rw [h]
    unfold tryFetchImagery
    rw [hr]
  · intro fmt buf hp
    cases h2 : isValidPNG buf <;> simp [validatePayload, hp, h2]
  · intro fmt buf hp ht
    cases h2 : isValidTIFF buf <;> simp [validatePayload, hp, ht, h2]
  · intro fmt buf hp ht
    rcases buf with _ | ⟨b, bs⟩ <;> simp [validatePayload, hp, ht]
  · intro fmt buf
    cases hp : includesSub (toLowerList fmt) fmtPng with
    | true => cases h2 : isValidPNG buf <;> simp [validatePayload, hp, h2]
    | false =>
      cases ht : (includesSub (toLowerList fmt) fmtTiff
          || includesSub (toLowerList fmt) fmtGeotiff
          || includesSub (toLowerList fmt) fmtTif) with
      | true => cases h2 : isValidTIFF buf <;> simp [validatePayload, hp, ht, h2]
      | false => rcases buf with _ | ⟨b, bs⟩ <;> simp [validatePayload, hp, ht]

/-- `payload_validation_by_format` instantiated: a declared-PNG payload with
wrong magic bytes is rejected after the single successful exchange, and a
correct PNG payload is accepted. -/
theorem payload_validation_by_format_instance :
    tryFetchImagery demoTransport fmtImagePng = none ∧
      validatePayload fmtImagePng pngBuf = some pngBuf := by
  constructor
  · have h := (@payload_validation_by_format Unit).1 demoTransport fmtImagePng
      badBuf rfl
    rw [h]
    decide
  · exact ((@payload_validation_by_format Unit).2.1 fmtImagePng pngBuf
      (by decide)).mpr (by decide)

/-- Claim C7: `getCached` never returns a value whose (positive, as every
`setCached` write is) expiry lies strictly in the past; an expired entry is
deleted at lookup and reported absent; `setCached` on a present key
immediately replaces value and expiry, so the prior value is never observable
afterwards; and `setCached` with nonnegative clock and positive ttl preserves
the all-positive-expiry invariant assumed in the first part. -/
theorem cache_expiry_invariant {K V : Type} [DecidableEq K] :
    (∀ (now : ℤ) (m : Cache K V) (k : K) (v : V),
      (∀ e, m k = some e → 0 < e.expires) →
      (getCached now m k).1 = some v →
      ∃ e, m k = some e ∧ e.value = v ∧ now ≤ e.expires) ∧
    (∀ (now : ℤ) (m : Cache K V) (k : K) (e : CacheEntry V),
      m k = some e → 0 < e.expires → e.expires < now →
      getCached now m k = (none, fun j => if j = k then none else m j)) ∧
    (∀ (now ttl : ℤ) (m : Cache K V) (k : K) (v : V),
      setCached now m k v ttl k = some ⟨v, now + ttl⟩) ∧
    (∀ (now ttl nowLater : ℤ) (m : Cache K V) (k : K) (v w : V),
      (getCached nowLater (setCached now m k v ttl) k).1 = some w → w = v) ∧
    (∀ (now ttl : ℤ) (m : Cache K V) (k j : K) (v : V) (e : CacheEntry V),
      0 ≤ now → 0 < ttl → (∀ e0, m j = some e0 → 0 < e0.expires) →
      setCached now m k v ttl j = some e → 0 < e.expires) := by
  refine ⟨?_, ?_, ?_, ?_, ?_⟩
  · intro now m k v hpos hget
    rcases hm : m k with _ | e
    · simp [getCached, hm] at hget
    · have he : 0 < e.expires := hpos e hm
      by_cases hexp : e.expires ≠ 0 ∧ e.expires < now
      · simp [getCached, hm, hexp] at hget
      · refine ⟨e, ?_, ?_, ?_⟩
        · simp [hm]
        · simp [getCached, hm, hexp] at hget
          exact hget
        · push_neg at hexp
          have := hexp (by omega)
          omega
  · intro now m k e hm h1 h2
    have : e.expires ≠ 0 ∧ e.expires < now := ⟨by omega, h2⟩
    simp [getCached, hm, this]
  · intro now ttl m k v
    simp [setCached]
  · intro now ttl nowLater m k v w hget
    by_cases hexp : now + ttl ≠ 0 ∧ now + ttl < nowLater
    · simp [getCached, setCached, hexp] at hget
    · simp [getCached, setCached, hexp] at hget
      exact hget.symm
  · intro now ttl m k j v e h1 h2 hinv hset
    unfold setCached at hset
    by_cases hj : j = k
    · rw [if_pos hj] at hset
      injection hset with h
      have : e.expires = now + ttl := by rw [← h]
      omega
    · rw [if_neg hj] at hset
      exact hinv e hset

/-- `cache_expiry_invariant` instantiated: the demo cache's key 0 (written
with expiry 100) is evicted and reported absent at time 200, and a fresh
`setCached` stores the new value with the standard ttl. -/
theorem cache_expiry_invariant_instance :
    getCached 200 demoCache 0
        = (none, fun j => if j = 0 then none else demoCache j) ∧
      setCached 200 demoCache 1 9 CACHE_TTL_MS 1 = some ⟨9, 200 + CACHE_TTL_MS⟩ :=
  ⟨(@cache_expiry_invariant ℕ ℕ _).2.1 200 demoCache 0 ⟨5, 100⟩ rfl (by decide)
      (by decide),
    (@cache_expiry_invariant ℕ ℕ _).2.2.1 200 CACHE_TTL_MS demoCache 1 9⟩

set_option maxRecDepth 2000 in
/-- Claim C3: a filename containing exactly one known sensor identifier makes
`generatePolygons` override the caller-supplied threshold/minArea with that
sensor's preset (sentinel-2: 180/100000, sentinel-1: 100/10000, landsat-8:
160/50000); a filename containing none leaves the caller's values unchanged.
(For filenames containing several identifiers the loop picks the first in
`SENSOR_PRESETS` insertion order.) -/
theorem sensor_preset_override (fn : List Char) (t a : ℚ) :
    (includesSub fn s2Id = true → includesSub fn s1Id = false →
      includesSub fn l8Id = false → selectParams fn t a = (180, 100000)) ∧
    (includesSub fn s2Id = false → includesSub fn s1Id = true →
      includesSub fn l8Id = false → selectParams fn t a = (100, 10000)) ∧
    (includesSub fn s2Id = false → includesSub fn s1Id = false →
      includesSub fn l8Id = true → selectParams fn t a = (160, 50000)) ∧
    (includesSub fn s2Id = false → includesSub fn s1Id = false →
      includesSub fn l8Id = false → selectParams fn t a = (t, a)) := by
  refine ⟨?_, ?_, ?_, ?_⟩ <;> intro h1 h2 h3 <;>
    simp [selectParams, SENSOR_PRESETS, List.find?, h1, h2, h3]

/-- `sensor_preset_override` instantiated at the four filename shapes the
ingest worker produces. -/
theorem sensor_preset_override_instance :
    selectParams fnS2 128 10 = (180, 100000) ∧
      selectParams fnS1 128 10 = (100, 10000) ∧
      selectParams fnL8 128 10 = (160, 50000) ∧
      selectParams fnUpload 128 10 = (128, 10) :=
  ⟨(sensor_preset_override fnS2 128 10).1 (by decide) (by decide) (by decide),
    (sensor_preset_override fnS1 128 10).2.1 (by decide) (by decide) (by decide),
    (sensor_preset_override fnL8 128 10).2.2.1 (by decide) (by decide) (by decide),
    (sensor_preset_override fnUpload 128 10).2.2.2 (by decide) (by decide)
      (by decide)⟩

/-- Claim C1: more than 500 raw contours at the effective threshold makes
`generatePolygons` return the empty FeatureCollection.  The statement holds
for every geometry oracle `G`, so no polygon conversion, area filtering or
merging can influence (or be observed in) the result. -/
theorem contour_ceiling_guard (G : GeoLib) (iso : ℚ → List GeoRing)
    (width height : ℕ) (fn : List Char) (t a : ℚ) (bb : Option BBox)
    (h : 500 < (iso (selectParams fn t a).1).length) :
    generatePolygons G iso width height fn t a bb = [] := by
  unfold generatePolygons
  rw [if_pos h]

/-- `contour_ceiling_guard` instantiated on a grid tracing 501 contours. -/
theorem contour_ceiling_guard_instance :
    500 < ((fun _ : ℚ => List.replicate 501 ([] : GeoRing))
        (selectParams [] 128 10).1).length ∧
      generatePolygons demoGeo (fun _ => List.replicate 501 []) 4 4 [] 128 10
        none = [] :=
  ⟨by simp only [List.length_replicate]; norm_num,
    contour_ceiling_guard demoGeo _ 4 4 [] 128 10 none
      (by simp only [List.length_replicate]; norm_num)⟩

/-- Claim C5: when a bounding box is supplied and the area-filtered polygons
cover more than 30% of it, `generatePolygons` returns the empty
FeatureCollection even though the raw contour count is at or below the
500-contour ceiling. -/
theorem coverage_guard (G : GeoLib) (iso : ℚ → List GeoRing)
    (width height : ℕ) (fn : List Char) (t a : ℚ) (b : BBox)
    (hc : (iso (selectParams fn t a).1).length ≤ 500)
    (hcov : coverageExceeded G b
      (filteredFeatures G iso width height fn t a (some b)) = true) :
    generatePolygons G iso width height fn t a (some b) = [] := by
  unfold generatePolygons
  rw [if_neg (not_lt.mpr hc)]
  simp [hcov]

/-- `coverage_guard` instantiated: a single polygon covering 80% of the demo
bounding box (by the demo area oracle) is discarded wholesale. -/
theorem coverage_guard_instance :
    coverageExceeded demoGeo demoBBox
        (filteredFeatures demoGeo (fun _ => [demoContour]) 4 4 [] 128 1
          (some demoBBox)) = true ∧
      generatePolygons demoGeo (fun _ => [demoContour]) 4 4 [] 128 1
        (some demoBBox) = [] := by
  have hff : filteredFeatures demoGeo (fun _ => [demoContour]) 4 4 [] 128 1
      (some demoBBox) = [demoRing] := by
    norm_num [filteredFeatures, filterByArea, contoursToPolygons, demoContour,
      demoRing, mapCoord, closeRing, demoBBox, demoGeo, selectParams,
      SENSOR_PRESETS, List.find?, includesSub, startsWith, s2Id, s1Id, l8Id,
      List.filterMap_cons, List.filterMap_nil, List.head?_cons, List.getLast?,
      List.filter]
  have hcov : coverageExceeded demoGeo demoBBox [demoRing] = true := by
    norm_num [coverageExceeded, totalAreaOf, demoRing, bboxPolygon, demoGeo,
      demoBBox]
  have h : coverageExceeded demoGeo demoBBox
      (filteredFeatures demoGeo (fun _ => [demoContour]) 4 4 [] 128 1
        (some demoBBox)) = true := by rw [hff]; exact hcov
  exact ⟨h, coverage_guard demoGeo _ 4 4 [] 128 1 demoBBox (by norm_num) h⟩

/-! ## Confidence lemmas (claim C8) -/

theorem roundRatMono {x y : ℚ} (h : x ≤ y) : round x ≤ round y := by
  rw [round_eq, round_eq]
  exact Int.floor_mono (by linarith)

theorem imageryQuality_bounds (s : ℕ) :
    30 ≤ imageryQuality s ∧ imageryQuality s ≤ 100 := by
  unfold imageryQuality
  split_ifs with h
  · norm_num
  · constructor
    · refine le_min (by norm_num) ?_
      have : (0 : ℚ) ≤ (s : ℚ) / 5000 := by positivity
      linarith
    · exact min_le_left _ _

theorem polygonConfidence_bounds (c : ℕ) :
    40 ≤ polygonConfidence c ∧ polygonConfidence c ≤ 90 := by
  unfold polygonConfidence
  constructor
  · refine le_min (by norm_num) ?_
    have : (0 : ℚ) ≤ (c : ℚ) * 8 := by positivity
    linarith
  · exact min_le_left _ _

theorem satelliteConfidence_bounds (s c : ℕ) :
    35 ≤ satelliteConfidence s c ∧ satelliteConfidence s c ≤ 95 := by
  obtain ⟨h1, h2⟩ := imageryQuality_bounds s
  obtain ⟨h3, h4⟩ := polygonConfidence_bounds c
  unfold satelliteConfidence
  rw [round_eq]
  constructor
  · rw [Int.le_floor]
    push_cast
    linarith
  · have hlt : ⌊(imageryQuality s + polygonConfidence c) / 2 + 1 / 2⌋ < 96 :=
      Int.floor_lt.mpr (by push_cast; linarith)
    omega

theorem documentConfidence_bounds (hs : Bool) (c : ℕ) :
    20 ≤ documentConfidence hs c ∧ documentConfidence hs c ≤ 60 := by
  unfold documentConfidence
  split_ifs <;> norm_num

theorem weatherConfidenceVal_bounds (gw : Bool) :
    45 ≤ weatherConfidenceVal gw ∧ weatherConfidenceVal gw ≤ 70 := by
  unfold weatherConfidenceVal
  split_ifs <;> norm_num

/-- Claim C8 as stated is false: a zero/absent artifact size scores the
fallback imagery quality 65, while a small positive size scores near 30, so
growing the size from 0 to 5000 bytes (well below the 350000-byte cap)
lowers the satellite component from 53 to 36. -/
theorem confidence_size_counterexample :
    (0 : ℕ) < 5000 ∧ (5000 : ℕ) ≤ 350000 ∧
      satelliteConfidence 0 0 = 53 ∧ satelliteConfidence 5000 0 = 36 ∧
      satelliteConfidence 5000 0 < satelliteConfidence 0 0 := by
  have h0 : satelliteConfidence 0 0 = 53 := by
    norm_num [satelliteConfidence, imageryQuality, polygonConfidence, min_def,
      round_eq]
  have h5 : satelliteConfidence 5000 0 = 36 := by
    norm_num [satelliteConfidence, imageryQuality, polygonConfidence, min_def,
      round_eq]
  exact ⟨by norm_num, by norm_num, h0, h5, by rw [h0, h5]; norm_num⟩

/-- Claim C8 amended: for strictly positive artifact sizes, increasing the
size (up to the cap) never decreases the satellite component; increasing the
polygon count never decreases the satellite or documents components; overall
confidence is the weighted sum satellite×0.40 + weather×0.35 +
documents×0.25 rounded to the nearest integer, and always lies in [0, 100]. -/
theorem confidence_monotonicity_amended :
    (∀ s₁ s₂ c : ℕ, 0 < s₁ → s₁ ≤ s₂ →
      satelliteConfidence s₁ c ≤ satelliteConfidence s₂ c) ∧
    (∀ s c₁ c₂ : ℕ, c₁ ≤ c₂ →
      satelliteConfidence s c₁ ≤ satelliteConfidence s c₂) ∧
    (∀ (hs : Bool) (c₁ c₂ : ℕ), c₁ ≤ c₂ →
      documentConfidence hs c₁ ≤ documentConfidence hs c₂) ∧
    (∀ (s c : ℕ) (hs gw : Bool), overallConfidence s c hs gw
      = round ((satelliteConfidence s c : ℚ) * (4 / 10)
        + weatherConfidenceVal gw * (35 / 100)
        + documentConfidence hs c * (25 / 100))) ∧
    (∀ (s c : ℕ) (hs gw : Bool),
      0 ≤ overallConfidence s c hs gw ∧ overallConfidence s c hs gw ≤ 100) := by
  refine ⟨?_, ?_, ?_, ?_, ?_⟩
  · intro s₁ s₂ c hpos hle
    apply roundRatMono
    have h1 : imageryQuality s₁ ≤ imageryQuality s₂ := by
      unfold imageryQuality
      rw [if_neg (by omega), if_neg (by omega)]
      have : (s₁ : ℚ) ≤ (s₂ : ℚ) := by exact_mod_cast hle
      gcongr
    linarith
  · intro s c₁ c₂ hle
    apply roundRatMono
    have h1 : polygonConfidence c₁ ≤ polygonConfidence c₂ := by
      unfold polygonConfidence
      have : (c₁ : ℚ) ≤ (c₂ : ℚ) := by exact_mod_cast hle
      gcongr
    linarith
  · intro hs c₁ c₂ hle
    unfold documentConfidence
    by_cases h1 : 0 < c₁
    · have h2 : 0 < c₂ := lt_of_lt_of_le h1 hle
      simp [h1, h2]
    · have : (0 : ℚ) ≤ if 0 < c₂ then (20 : ℚ) else 0 := by
        split_ifs <;> norm_num
      simp only [h1, if_false]
      linarith
  · intro s c hs gw
    rfl
  · intro s c hs gw
    obtain ⟨h1, h2⟩ := satelliteConfidence_bounds s c
    obtain ⟨h3, h4⟩ := documentConfidence_bounds hs c
    obtain ⟨h5, h6⟩ := weatherConfidenceVal_bounds gw
    have hc1 : (35 : ℚ) ≤ (satelliteConfidence s c : ℚ) := by exact_mod_cast h1
    have hc2 : (satelliteConfidence s c : ℚ) ≤ 95 := by exact_mod_cast h2
    unfold overallConfidence
    rw [round_eq]
    constructor
    · rw [Int.le_floor]
      push_cast
      nlinarith
    · have hlt : ⌊(satelliteConfidence s c : ℚ) * (4 / 10)
          + weatherConfidenceVal gw * (35 / 100)
          + documentConfidence hs c * (25 / 100) + 1 / 2⌋ < 101 :=
        Int.floor_lt.mpr (by push_cast; nlinarith)
      omega

/-! ## Lemmas about the pairwise merge loop (claim C4) -/

theorem mergeWith_length {G : GeoLib} {thr : ℚ} {p : GeoRing} :
    ∀ {l : List GeoRing} {u : GeoRing} {l' : List GeoRing},
      mergeWith G thr p l = some (u, l') → l'.length + 1 = l.length := by
  intro l
  induction l with
  | nil => intro u l' h; simp [mergeWith] at h
  | cons q qs ih =>
    intro u l' h
    unfold mergeWith at h
    by_cases hq : qualifies G thr p q = true
    · rw [if_pos hq] at h
      simp only [Option.some.injEq, Prod.mk.injEq] at h
      obtain ⟨h1, h2⟩ := h
      subst h2
      simp
    · rw [if_neg hq] at h
      cases hm : mergeWith G thr p qs with
      | none => rw [hm] at h; cases h
      | some pr =>
        obtain ⟨u0, qs'⟩ := pr
        rw [hm] at h
        simp only [Option.some.injEq, Prod.mk.injEq] at h
        obtain ⟨h1, h2⟩ := h
        subst h2
        have := ih hm
        simp only [List.length_cons]
        omega

theorem mergeOnce_length {G : GeoLib} {thr : ℚ} :
    ∀ {l l' : List GeoRing},
      mergeOnce G thr l = some l' → l'.length + 1 = l.length := by
  intro l
  induction l with
  | nil => intro l' h; simp [mergeOnce] at h
  | cons p rest ih =>
    intro l' h
    unfold mergeOnce at h
    cases hw : mergeWith G thr p rest with
    | some pr =>
      obtain ⟨u, rest'⟩ := pr
      rw [hw] at h
      simp only [Option.some.injEq] at h
      subst h
      have := mergeWith_length hw
      simp only [List.length_cons]
      omega
    | none =>
      rw [hw] at h
      cases hr : mergeOnce G thr rest with
      | none => rw [hr] at h; cases h
      | some rest' =>
        rw [hr] at h
        simp only [Option.some.injEq] at h
        subst h
        have := ih hr
        simp only [List.length_cons]
        omega

theorem mergeWith_none_iff {G : GeoLib} {thr : ℚ} {p : GeoRing} :
    ∀ {l : List GeoRing}, mergeWith G thr p l = none ↔
      ∀ q ∈ l, qualifies G thr p q = false := by
  intro l
  induction l with
  | nil => simp [mergeWith]
  | cons q qs ih =>
    unfold mergeWith
    by_cases hq : qualifies G thr p q = true
    · rw [if_pos hq]
      constructor
      · intro h; cases h
      · intro h
        exact absurd (h q (List.mem_cons_self q qs)) (by simp [hq])
    · rw [if_neg hq]
      cases hm : mergeWith G thr p qs with
      | some pr =>
        obtain ⟨u, qs'⟩ := pr
        constructor
        · intro h; simp at h
        · intro h
          have h2 : mergeWith G thr p qs = none :=
            ih.mpr fun x hx => h x (List.mem_cons_of_mem q hx)
          rw [hm] at h2
          cases h2
      | none =>
        constructor
        · intro _ x hx
          rcases List.mem_cons.mp hx with rfl | hx'
          · simpa using hq
          · exact ih.mp hm x hx'
        · intro _; rfl

theorem mergeOnce_none_iff {G : GeoLib} {thr : ℚ} :
    ∀ {l : List GeoRing}, mergeOnce G thr l = none ↔
      l.Pairwise (fun p q => qualifies G thr p q = false) := by
  intro l
  induction l with
  | nil => simp [mergeOnce]
  | cons p rest ih =>
    unfold mergeOnce
    cases hw : mergeWith G thr p rest with
    | some pr =>
      obtain ⟨u, rest'⟩ := pr
      constructor
      · intro h; simp at h
      · intro h
        rw [List.pairwise_cons] at h
        have h2 : mergeWith G thr p rest = none := mergeWith_none_iff.mpr h.1
        rw [hw] at h2
        cases h2
    | none =>
      cases hr : mergeOnce G thr rest with
      | some rest' =>
        constructor
        · intro h; simp at h
        · intro h
          rw [List.pairwise_cons] at h
          have h2 : mergeOnce G thr rest = none := ih.mpr h.2
          rw [hr] at h2
          cases h2
      | none =>
        constructor
        · intro _
          rw [List.pairwise_cons]
          exact ⟨mergeWith_none_iff.mp hw, ih.mp hr⟩
        · intro _; rfl

theorem mergeLoopFuel_fixed (G : GeoLib) (thr : ℚ) :
    ∀ (n : ℕ) (l : List GeoRing), l.length ≤ n →
      mergeOnce G thr (mergeLoopFuel G thr n l) = none := by
  intro n
  induction n with
  | zero =>
    intro l h
    have : l = [] := List.length_eq_zero.mp (by omega)
    subst this
    rfl
  | succ n ih =>
    intro l h
    unfold mergeLoopFuel
    cases hm : mergeOnce G thr l with
    | none => exact hm
    | some l' =>
      have := mergeOnce_length hm
      exact ih l' (by omega)

theorem mergeOverlappingPolygons_fixed (G : GeoLib) (thr : ℚ) (l : List GeoRing) :
    mergeOnce G thr (mergeOverlappingPolygons G thr l) = none := by
  unfold mergeOverlappingPolygons
  split_ifs with h
  · have : l = [] := List.length_eq_zero.mp h
    subst this
    rfl
  · exact mergeLoopFuel_fixed G thr l.length l le_rfl

/-- Claim C4: the restart-scan merge loop is total (it is a function here, by
fuel bounded by the one-element-per-merge length decrease) and reaches a fixed
point — in the returned list no pair's intersection exceeds the overlap
threshold of the smaller area; a qualifying pair (overlap above 10% of the
smaller) collapses to the single polygon `turf.union` produces, not a
concatenation; a pair overlapping by only 5% of the smaller area is returned
as two distinct polygons. -/
theorem merge_fixed_point :
    (∀ (G : GeoLib) (thr : ℚ) (l : List GeoRing),
      (mergeOverlappingPolygons G thr l).Pairwise
        (fun p q => qualifies G thr p q = false)) ∧
    (∀ (G : GeoLib) (p q : GeoRing), qualifies G (1 / 10) p q = true →
      mergeOverlappingPolygons G (1 / 10) [p, q] = [G.union p q]) ∧
    (∀ (G : GeoLib) (p q inter : GeoRing), G.intersect p q = some inter →
      0 < min (G.area p) (G.area q) →
      G.area inter = 5 / 100 * min (G.area p) (G.area q) →
      mergeOverlappingPolygons G (1 / 10) [p, q] = [p, q]) := by
  refine ⟨?_, ?_, ?_⟩
  · intro G thr l
    exact mergeOnce_none_iff.mp (mergeOverlappingPolygons_fixed G thr l)
  · intro G p q h
    have h' : qualifies G ((10 : ℚ))⁻¹ p q = true := by rwa [← one_div]
    simp [mergeOverlappingPolygons, mergeLoopFuel, mergeOnce, mergeWith, h']
  · intro G p q inter hint hmin harea
    have hratio : G.area inter / min (G.area p) (G.area q) = 5 / 100 := by
      rw [harea, mul_div_assoc, div_self (ne_of_gt hmin), mul_one]
    have hlt : ¬ ((1 : ℚ) / 10 < G.area inter / min (G.area p) (G.area q)) := by
      rw [hratio]
      norm_num
    have hq : qualifies G ((10 : ℚ))⁻¹ p q = false := by
      unfold qualifies
      rw [hint]
      simpa [one_div] using hlt
    simp [mergeOverlappingPolygons, mergeLoopFuel, mergeOnce, mergeWith, hq]

/-- `merge_fixed_point` instantiated with the demo geometry oracle: a
qualifying pair collapses to its union, a 5%-overlap pair stays distinct. -/
theorem merge_fixed_point_instance :
    mergeOverlappingPolygons demoGeo (1 / 10) [ringA, ringB]
        = [demoGeo.union ringA ringB] ∧
      mergeOverlappingPolygons demoGeo (1 / 10) [ringC, ringD] = [ringC, ringD] := by
  constructor
  · refine merge_fixed_point.2.1 demoGeo ringA ringB ?_
    have hint : demoGeo.intersect ringA ringB = some [(0, 0)] := rfl
    unfold qualifies
    rw [hint, decide_eq_true_eq]
    norm_num [demoGeo, ringA, ringB, min_def]
  · refine merge_fixed_point.2.2 demoGeo ringC ringD (ringC.take 1) rfl ?_ ?_ <;>
      norm_num [demoGeo, ringC, ringD, min_def]

/-! ## Lemmas about ring construction (claim C9) -/

theorem closeRing_closed (coords : GeoRing) (h : coords ≠ []) :
    isClosedRing (closeRing coords) := by
  rcases coords with _ | ⟨c, cs⟩
  · exact absurd rfl h
  · unfold closeRing
    simp only [List.head?_cons]
    split_ifs with hl
    · exact ⟨List.cons_ne_nil c cs, by simp [hl]⟩
    · refine ⟨by simp, ?_⟩
      rw [List.getLast?_concat, List.cons_append, List.head?_cons]

theorem closeRing_mem {coords : GeoRing} : ∀ pt ∈ closeRing coords, pt ∈ coords := by
  intro pt hpt
  rcases coords with _ | ⟨c, cs⟩
  · simp [closeRing] at hpt
  · unfold closeRing at hpt
    simp only [List.head?_cons] at hpt
    split_ifs at hpt with hl
    · exact hpt
    · rcases List.mem_append.mp hpt with h | h
      · exact h
      · simp only [List.mem_singleton] at h
        subst h
        exact List.mem_cons_self pt cs

theorem mem_contoursToPolygons {contours : List GeoRing} {w h : ℕ}
    {bb : Option BBox} {r : GeoRing}
    (hr : r ∈ contoursToPolygons contours w h bb) :
    ∃ c ∈ contours, 3 ≤ c.length ∧
      r = closeRing (c.map (mapCoord bb w h)) ∧ 4 ≤ r.length := by
  unfold contoursToPolygons at hr
  rcases List.mem_filterMap.mp hr with ⟨c, hc, hfc⟩
  by_cases h3 : c.length < 3
  · rw [if_pos h3] at hfc; cases hfc
  · rw [if_neg h3] at hfc
    dsimp only at hfc
    by_cases h4 : (closeRing (c.map (mapCoord bb w h))).length < 4
    · rw [if_pos h4] at hfc; cases hfc
    · rw [if_neg h4] at hfc
      simp only [Option.some.injEq] at hfc
      subst hfc
      exact ⟨c, hc, not_lt.mp h3, rfl, not_lt.mp h4⟩

theorem mergeWith_preserve {G : GeoLib} {thr : ℚ} (P : GeoRing → Prop)
    (hU : ∀ p q, P (G.union p q)) :
    ∀ {l : List GeoRing} {p u : GeoRing} {l' : List GeoRing},
      P p → (∀ r ∈ l, P r) → mergeWith G thr p l = some (u, l') →
      P u ∧ ∀ r ∈ l', P r := by
  intro l
  induction l with
  | nil => intro p u l' _ _ h; simp [mergeWith] at h
  | cons q qs ih =>
    intro p u l' hp hl h
    unfold mergeWith at h
    by_cases hq : qualifies G thr p q = true
    · rw [if_pos hq] at h
      simp only [Option.some.injEq, Prod.mk.injEq] at h
      obtain ⟨h1, h2⟩ := h
      subst h1
      subst h2
      exact ⟨hU p q, fun r hr => hl r (List.mem_cons_of_mem q hr)⟩
    · rw [if_neg hq] at h
      cases hm : mergeWith G thr p qs with
      | none => rw [hm] at h; cases h
      | some pr =>
        obtain ⟨u0, qs'⟩ := pr
        rw [hm] at h
        simp only [Option.some.injEq, Prod.mk.injEq] at h
        obtain ⟨h1, h2⟩ := h
        subst h1
        subst h2
        have hrec := ih hp (fun r hr => hl r (List.mem_cons_of_mem q hr)) hm
        refine ⟨hrec.1, fun r hr => ?_⟩
        rcases List.mem_cons.mp hr with rfl | hr'
        · exact hl r (List.mem_cons_self r qs)
        · exact hrec.2 r hr'

theorem mergeOnce_preserve {G : GeoLib} {thr : ℚ} (P : GeoRing → Prop)
    (hU : ∀ p q, P (G.union p q)) :
    ∀ {l l' : List GeoRing}, (∀ r ∈ l, P r) → mergeOnce G thr l = some l' →
      ∀ r ∈ l', P r := by
  intro l
  induction l with
  | nil => intro l' _ h; simp [mergeOnce] at h
  | cons p rest ih =>
    intro l' hl h
    unfold mergeOnce at h
    cases hw : mergeWith G thr p rest with
    | some pr =>
      obtain ⟨u, rest'⟩ := pr
      rw [hw] at h
      simp only [Option.some.injEq] at h
      subst h
      have hp : P p := hl p (List.mem_cons_self p rest)
      have hpr := mergeWith_preserve P hU hp
        (fun r hr => hl r (List.mem_cons_of_mem p hr)) hw
      intro r hr
      rcases List.mem_cons.mp hr with rfl | hr'
      · exact hpr.1
      · exact hpr.2 r hr'
    | none =>
      rw [hw] at h
      cases hrec : mergeOnce G thr rest with
      | none => rw [hrec] at h; cases h
      | some rest' =>
        rw [hrec] at h
        simp only [Option.some.injEq] at h
        subst h
        intro r hr
        rcases List.mem_cons.mp hr with rfl | hr'
        · exact hl r (List.mem_cons_self r rest)
        · exact ih (fun x hx => hl x (List.mem_cons_of_mem p hx)) hrec r hr'

theorem mergeLoopFuel_preserve {G : GeoLib} {thr : ℚ} (P : GeoRing → Prop)
    (hU : ∀ p q, P (G.union p q)) :
    ∀ (n : ℕ) (l : List GeoRing), (∀ r ∈ l, P r) →
      ∀ r ∈ mergeLoopFuel G thr n l, P r := by
  intro n
  induction n with
  | zero => intro l hl; exact hl
  | succ n ih =>
    intro l hl
    unfold mergeLoopFuel
    cases hm : mergeOnce G thr l with
    | none => exact hl
    | some l' => exact ih l' (mergeOnce_preserve P hU hl hm)

theorem mergeOverlappingPolygons_preserve {G : GeoLib} {thr : ℚ}
    (P : GeoRing → Prop) (hU : ∀ p q, P (G.union p q)) (l : List GeoRing)
    (hl : ∀ r ∈ l, P r) : ∀ r ∈ mergeOverlappingPolygons G thr l, P r := by
  unfold mergeOverlappingPolygons
  split_ifs with h
  · exact hl
  · exact mergeLoopFuel_preserve P hU l.length l hl

theorem filteredFeatures_closed (G : GeoLib) (iso : ℚ → List GeoRing)
    (w h : ℕ) (fn : List Char) (t a : ℚ) (bb : Option BBox) :
    ∀ r ∈ filteredFeatures G iso w h fn t a bb, isClosedRing r := by
  intro r hr
  unfold filteredFeatures filterByArea at hr
  obtain ⟨c, hc, h3, hEq, h4⟩ := mem_contoursToPolygons (List.mem_filter.mp hr).1
  subst hEq
  apply closeRing_closed
  intro hnil
  have hlen := congrArg List.length hnil
  rw [List.length_map] at hlen
  simp only [List.length_nil] at hlen
  omega

/-- Claim C9: every feature extraction emits has a closed, nonempty ring
(merged features too, granted `turf.union` emits closed rings); every ring
built by `contoursToPolygons` has at least 3 points and all its coordinates
are pixel coordinates of its source contour mapped by linear interpolation
over the bounding box when one is supplied; the interpolation flips the
vertical axis — pixel row 0 maps to the north (max-latitude) edge and pixel
row `height` to the south edge. -/
theorem extraction_ring_geometry :
    (∀ (G : GeoLib) (iso : ℚ → List GeoRing) (w h : ℕ) (fn : List Char)
      (t a : ℚ) (bb : Option BBox), (∀ p q, isClosedRing (G.union p q)) →
      ∀ r ∈ generatePolygons G iso w h fn t a bb, isClosedRing r) ∧
    (∀ (contours : List GeoRing) (w h : ℕ) (bb : Option BBox) (r : GeoRing),
      r ∈ contoursToPolygons contours w h bb →
      isClosedRing r ∧ 3 ≤ r.length ∧
        ∃ c ∈ contours, ∀ pt ∈ r, ∃ p ∈ c, pt = mapCoord bb w h p) ∧
    (∀ (b : BBox) (w h : ℕ) (x : ℚ), (mapCoord (some b) w h (x, 0)).2 = b.maxY) ∧
    (∀ (b : BBox) (w h : ℕ) (y : ℚ), (mapCoord (some b) w h (0, y)).1 = b.minX) ∧
    (∀ (b : BBox) (w h : ℕ) (x : ℚ), 0 < h →
      (mapCoord (some b) w h (x, (h : ℚ))).2 = b.minY) := by
  refine ⟨?_, ?_, ?_, ?_, ?_⟩
  · intro G iso w h fn t a bb hU r hr
    simp only [generatePolygons] at hr
    split_ifs at hr with h1 h2 h3
    · simp at hr
    · simp at hr
    · exact mergeOverlappingPolygons_preserve isClosedRing hU _
        (filteredFeatures_closed G iso w h fn t a bb) r hr
    · exact filteredFeatures_closed G iso w h fn t a bb r hr
  · intro contours w h bb r hr
    obtain ⟨c, hc, h3, hEq, h4⟩ := mem_contoursToPolygons hr
    refine ⟨?_, le_trans (by norm_num) h4, c, hc, ?_⟩
    · rw [hEq]
      apply closeRing_closed
      intro hnil
      have hlen := congrArg List.length hnil
      rw [List.length_map] at hlen
      simp only [List.length_nil] at hlen
      omega
    · intro pt hpt
      rw [hEq] at hpt
      rcases List.mem_map.mp (closeRing_mem pt hpt) with ⟨p, hp, hmap⟩
      exact ⟨p, hp, hmap.symm⟩
  · intro b w h x
    simp [mapCoord]
  · intro b w h y
    simp [mapCoord]
  · intro b w h x hh
    have hne : ((h : ℚ)) ≠ 0 := Nat.cast_ne_zero.mpr (by omega)
    simp only [mapCoord]
    rw [div_self hne]
    ring

/-- `extraction_ring_geometry` instantiated on the demo contour: the emitted
ring is closed and has at least 3 points. -/
theorem extraction_ring_geometry_instance :
    demoRing ∈ contoursToPolygons [demoContour] 4 4 (some demoBBox) ∧
      isClosedRing demoRing ∧ 3 ≤ demoRing.length := by
  have hm : demoRing ∈ contoursToPolygons [demoContour] 4 4 (some demoBBox) := by
    norm_num [contoursToPolygons, demoContour, demoRing, mapCoord, closeRing,
      demoBBox, List.filterMap_cons, List.filterMap_nil, List.head?_cons,
      List.getLast?]
  have h := extraction_ring_geometry.2.1 [demoContour] 4 4 (some demoBBox)
    demoRing hm
  exact ⟨hm, h.1, h.2.1⟩

/-- `confidence_monotonicity_amended` instantiated at concrete sizes, counts
and flags. -/
theorem confidence_monotonicity_amended_instance :
    satelliteConfidence 5000 0 ≤ satelliteConfidence 10000 0 ∧
      satelliteConfidence 5000 0 ≤ satelliteConfidence 5000 3 ∧
      (0 ≤ overallConfidence 5000 3 true true ∧
        overallConfidence 5000 3 true true ≤ 100) :=
  ⟨confidence_monotonicity_amended.1 5000 10000 0 (by norm_num) (by norm_num),
    confidence_monotonicity_amended.2.1 5000 0 3 (by norm_num),
    confidence_monotonicity_amended.2.2.2.2 5000 3 true true⟩

end ClimateOps
